import Mathlib

/-!
# Verification of the Car-Part.com scraping pipeline

Shallow embedding of `src/carpart_scraper.py`: search-term normalization,
results-table extraction, interchange handling, deduplication and price
statistics.  HTML documents are modelled as already-parsed data (tables of
cell texts, form inputs), matching the slice of the BeautifulSoup interface
the code consumes; network responses are passed in as explicit values
(`Option Page`, `none` standing for a caught transport failure).  Numeric
prices are modelled as rationals.
-/

namespace CarPart

/-! ## Character classes and low-level scanners -/

/-- The character class `[\d,.]` used by the price regular expressions. -/
def priceClass (c : Char) : Bool := c.isDigit || c = ',' || c = '.'

/-- The character class `[\d\-]` used by the phone regular expression. -/
def phoneClass (c : Char) : Bool := c.isDigit || c = '-'

/-- The character class `\w` (ASCII reading) used by the location regular
expression. -/
def wordClass (c : Char) : Bool := c.isAlphanum || c = '_'

/-- If `pat` is a literal prefix of `l`, return the remainder of `l`. -/
def afterLit : List Char → List Char → Option (List Char)
  | [], l => some l
  | _ :: _, [] => none
  | p :: ps, c :: cs => if p = c then afterLit ps cs else none

/-- `pat` is a literal prefix of `l`. -/
def startsWithLit (pat l : List Char) : Bool := (afterLit pat l).isSome

/-- `pat` occurs somewhere in `l`. -/
def subOccurs (pat : List Char) : List Char → Bool
  | [] => pat.isEmpty
  | c :: cs => startsWithLit pat (c :: cs) || subOccurs pat cs

/-- Substring test: `pat in s` in the Python sense. -/
def strContains (s pat : String) : Bool := subOccurs pat.data s.data

/-- Python `str.strip()` (ASCII whitespace): drop whitespace from both
ends. -/
def strTrim (s : String) : String :=
  String.mk (((s.data.dropWhile Char.isWhitespace).reverse.dropWhile
    Char.isWhitespace).reverse)

/-- Python `str.lower()` on ASCII text. -/
def strLower (s : String) : String := String.mk (s.data.map Char.toLower)

/-- Value of a digit string (most significant first). -/
def digitsToNat (l : List Char) : Nat :=
  l.foldl (fun a c => a * 10 + (c.toNat - 48)) 0

/-- Python `float()` on a string made only of digits and at most the dots
kept by the `[\d,.]` run (commas already removed): succeeds when there is at
least one digit and at most one dot, as in `float("125")`, `float("12.5")`,
`float(".5")`, `float("12.")`; fails on `"."`, `""` or two dots. -/
def parseDecimal (l : List Char) : Option ℚ :=
  let intPart := l.takeWhile (fun c => c ≠ '.')
  let rest := l.dropWhile (fun c => c ≠ '.')
  match rest with
  | [] => if intPart = [] then none else some (digitsToNat intPart)
  | _ :: frac =>
      if frac.contains '.' then none
      else if intPart = [] ∧ frac = [] then none
      else some ((digitsToNat intPart : ℚ) + (digitsToNat frac : ℚ) / (10 : ℚ) ^ frac.length)

/-- First maximal run of characters satisfying `p` (the first match of the
regular expression `[c]+` for the class `c`). -/
def firstRun (p : Char → Bool) : List Char → Option (List Char)
  | [] => none
  | c :: cs => if p c then some (c :: cs.takeWhile p) else firstRun p cs

/-- Numeric price extraction from lines 323–332 of `search_single_part`:
`re.search(r'([\d,.]+)', price_text.replace('$', ''))` followed by
`float(match.replace(',', ''))`, with a failed `float` silently skipped. -/
def extractPriceNum (s : String) : Option ℚ :=
  match firstRun priceClass (s.data.filter (fun c => c ≠ '$')) with
  | none => none
  | some run => parseDecimal (run.filter (fun c => c ≠ ','))

/-! ## Listings, deduplication and price statistics -/

/-- One row extracted from a results table (the dict built in
`_parse_results_table`). -/
structure Listing where
  part_name : String
  year : String
  description : String
  grade : String
  stock_num : String
  price : String
  vendor : String
  location : String
  phone : String
  distance_miles : String
deriving DecidableEq, Repr

/-- Deduplication identity: `(listing.get('vendor', ''), listing.get('stock_num', ''))`. -/
def dedupKey (l : Listing) : String × String := (l.vendor, l.stock_num)

/-- The dedup loop of `search_single_part` (lines 314–321), with the `seen`
set made explicit. -/
def dedupAux (seen : List (String × String)) : List Listing → List Listing
  | [] => []
  | x :: xs =>
      if dedupKey x ∈ seen then dedupAux seen xs
      else x :: dedupAux (dedupKey x :: seen) xs

/-- Deduplicate by `(vendor, stock_num)`, keeping first occurrences in order. -/
def dedupListings (l : List Listing) : List Listing := dedupAux [] l

/-- The parseable numeric prices of a listing list, in order (the `prices`
list of lines 323–332). -/
def extractPrices (l : List Listing) : List ℚ :=
  l.filterMap (fun x => extractPriceNum x.price)

/-- Python `min` over a list: `none` on the empty list, else a left fold. -/
def listMin : List ℚ → Option ℚ
  | [] => none
  | p :: ps => some (ps.foldl min p)

/-- The summary dict returned by `search_single_part`. -/
structure Summary where
  part_name : String
  avg_price : Option ℚ
  low_price : Option ℚ
  listing_count : Nat
deriving DecidableEq, Repr

/-- Lines 314–342 of `search_single_part`: dedup, price extraction and the
returned statistics. -/
def summarizeListings (part_name : String) (listings : List Listing) : Summary :=
  let unique_listings := dedupListings listings
  let prices := extractPrices unique_listings
  { part_name := part_name
    avg_price := if prices.isEmpty then none else some (prices.sum / (prices.length : ℚ))
    low_price := listMin prices
    listing_count := unique_listings.length }

/-- The empty result returned on transport failure or an INVALID response. -/
def emptySummary (part_name : String) : Summary :=
  { part_name := part_name, avg_price := none, low_price := none, listing_count := 0 }

/-! ## Row field extraction (`_parse_results_table`, lines 184–241)

Each helper is the shallow embedding of one of the regular-expression
extractions applied to a cell's text. -/

/-- `re.match(r'^(\d{4})', cell0)`: the leading four-digit run, else `""`. -/
def yearOf (cell0 : String) : String :=
  let ds := cell0.data.take 4
  if ds.length = 4 ∧ ds.all Char.isDigit = true then String.mk ds else ""

/-- One attempt of `Estimated CO2e Savings:\s*\d+kg` anchored at the head of
`l`; returns the remainder after the match.  `\s*` and `\d+` are greedy, and
backtracking cannot help (a shorter whitespace run ends in whitespace, a
shorter digit run ends in a digit). -/
def co2eMatch (l : List Char) : Option (List Char) :=
  match afterLit "Estimated CO2e Savings:".data l with
  | none => none
  | some r1 =>
      let r2 := r1.dropWhile Char.isWhitespace
      let ds := r2.takeWhile Char.isDigit
      if ds = [] then none
      else afterLit "kg".data (r2.dropWhile Char.isDigit)

/-- `re.sub` of the CO2e pattern with `''`: remove non-overlapping matches
left to right.  Fuel-driven; `fuel = l.length` suffices since every step
consumes at least one character. -/
def subCO2eAux : Nat → List Char → List Char
  | 0, l => l
  | _ + 1, [] => []
  | fuel + 1, c :: cs =>
      match co2eMatch (c :: cs) with
      | some rest => subCO2eAux fuel rest
      | none => c :: subCO2eAux fuel cs

/-- Description cleanup: strip embedded CO2e fragments, then `.strip()`. -/
def descriptionOf (s : String) : String := strTrim (String.mk (subCO2eAux s.data.length s.data))

/-- `re.search(r'(\$[\d,.]+)', price_text)`: first `'$'` followed by at
least one `[\d,.]` character, capturing the `'$'` and the maximal run. -/
def priceSearch : List Char → Option (List Char)
  | [] => none
  | c :: cs =>
      if c = '$' then
        let run := cs.takeWhile priceClass
        if run = [] then priceSearch cs else some (c :: run)
      else priceSearch cs

/-- Price cell: the matched dollar amount, or the raw text when the pattern
does not match (e.g. a `"Call"` marker). -/
def priceOf (s : String) : String :=
  match priceSearch s.data with
  | some m => String.mk m
  | none => s

/-- `re.match(r'^(.+?)(?:USA-|Can-)', dealer_text)`: non-greedy `.+?` takes
the shortest non-empty prefix (containing no newline, which `.` cannot
match) that is followed by `"USA-"` or `"Can-"`; `acc` is the prefix
consumed so far. -/
def vendorMatchAux (acc : List Char) : List Char → Option (List Char)
  | [] => none
  | c :: cs =>
      if c = '\n' then none
      else if startsWithLit "USA-".data cs || startsWithLit "Can-".data cs then some (acc ++ [c])
      else vendorMatchAux (acc ++ [c]) cs

/-- Python `str.replace(pat, rep)` with a non-empty pattern: replace
non-overlapping occurrences left to right (fuel-driven). -/
def replaceList (pat rep : List Char) : Nat → List Char → List Char
  | 0, l => l
  | _ + 1, [] => []
  | fuel + 1, c :: cs =>
      match afterLit pat (c :: cs) with
      | some rest => rep ++ replaceList pat rep fuel rest
      | none => c :: replaceList pat rep fuel cs

/-- `String`-level replace-all. -/
def replaceAll (s pat rep : String) : String :=
  String.mk (replaceList pat.data rep.data s.data.length s.data)

/-- The fixed trailing annotations stripped from a vendor name. -/
def vendorSuffixes : List String :=
  [" - PRP Freight, ARA, CDC", " - PRP Freight, CDC", " - CDC", " - ARA"]

/-- Vendor extraction: text before the country-code marker (stripped), else
the first 60 characters; then the known suffix annotations are removed. -/
def vendorOf (dealer_text : String) : String :=
  let base :=
    match vendorMatchAux [] dealer_text.data with
    | some g => strTrim (String.mk g)
    | none => String.mk (dealer_text.data.take 60)
  vendorSuffixes.foldl (fun acc suf => replaceAll acc suf "") base

/-- One attempt of `(?:USA|Can)-(\w+)\(([^)]+)\)` anchored at the head of
`l`; returns `(code, city)` on success.  `\w+` is greedy and must end right
before `'('`; `[^)]+` is greedy and must end right before `')'`. -/
def locMatchAt (l : List Char) : Option (List Char × List Char) :=
  match (afterLit "USA-".data l).orElse (fun _ => afterLit "Can-".data l) with
  | none => none
  | some rest =>
      let code := rest.takeWhile wordClass
      if code = [] then none
      else
        match rest.dropWhile wordClass with
        | '(' :: r2 =>
            let city := r2.takeWhile (fun c => c ≠ ')')
            if city = [] then none
            else
              match r2.dropWhile (fun c => c ≠ ')') with
              | ')' :: _ => some (code, city)
              | _ => none
        | _ => none

/-- The marker in `(?:USA|Can)-...` is three characters long, but `afterLit`
in `locMatchAt` consumes the `'-'` too, so the code group starts after it. -/
def locSearch : List Char → Option (List Char × List Char)
  | [] => none
  | c :: cs => (locMatchAt (c :: cs)).orElse (fun _ => locSearch cs)

/-- Location: `"<city>, <code>"` from the first match, else `""`. -/
def locationOf (dealer_text : String) : String :=
  match locSearch dealer_text.data with
  | some (code, city) => String.mk city ++ ", " ++ String.mk code
  | none => ""

/-- `re.search(r'(\d[\d\-]{9,})', dealer_text)`: first digit followed by at
least nine `[\d\-]` characters, taken greedily. -/
def phoneSearch : List Char → Option (List Char)
  | [] => none
  | c :: cs =>
      let run := cs.takeWhile phoneClass
      if c.isDigit = true ∧ 9 ≤ run.length then some (c :: run)
      else phoneSearch cs

/-- Phone: the first long digit/hyphen run, else `""`. -/
def phoneOf (dealer_text : String) : String :=
  match phoneSearch dealer_text.data with
  | some m => String.mk m
  | none => ""

/-! ## Tables and `_parse_results_table` -/

/-- A table cell: `isTh` distinguishes `<th>` from `<td>`, since the header
row is read with `find_all(['td', 'th'])` but data rows with
`find_all('td')`. -/
structure Cell where
  isTh : Bool
  text : String
deriving DecidableEq, Repr

/-- A table row (`<tr>`): its cells in document order. -/
abbrev Row := List Cell

/-- A table: its rows in document order, each cell text already extracted
with `get_text(strip=True)`. -/
abbrev Table := List Row

/-- `row.find_all(['td', 'th'])` texts. -/
def headerCells (r : Row) : List String := r.map (fun c => c.text)

/-- `row.find_all('td')` texts. -/
def dataCells (r : Row) : List String := (r.filter (fun c => !c.isTh)).map (fun c => c.text)

/-- The `_HEADER_MAP` dictionary: canonical header name → listing key. -/
def _HEADER_MAP : List (String × String) :=
  [("description", "description"), ("partgrade", "grade"), ("stock#", "stock_num"),
   ("usprice", "price"), ("dealer info", "dealer"), ("dealerinfo", "dealer"),
   ("distmile", "distance_miles")]

/-- Lookup in `_HEADER_MAP`. -/
def headerMapLookup (k : String) : Option String :=
  (_HEADER_MAP.find? (fun p => p.1 == k)).map (fun p => p.2)

/-- The column-index dictionary built from the header row. -/
abbrev ColIdx := List (String × Nat)

/-- Python dict assignment `d[k] = v`: replace in place if present, else
append. -/
def colInsert (d : ColIdx) (k : String) (v : Nat) : ColIdx :=
  if d.any (fun p => p.1 == k) then d.map (fun p => if p.1 == k then (p.1, v) else p)
  else d ++ [(k, v)]

/-- Lines 174–178: `col_idx[_HEADER_MAP[key]] = i` over the enumerated
header texts, with `key = h.lower().strip()`. -/
def buildColIdx (headerTexts : List String) : ColIdx :=
  headerTexts.enum.foldl
    (fun d p =>
      match headerMapLookup (strTrim (strLower p.2)) with
      | some key => colInsert d key p.1
      | none => d) []

/-- Dict lookup `col_idx.get(key)`. -/
def colLookup (d : ColIdx) (k : String) : Option Nat :=
  (d.find? (fun p => p.1 == k)).map (fun p => p.2)

/-- One data row (lines 185–241): skipped when it has fewer `<td>` cells
than the header has cells; otherwise each field is extracted by resolved
column index (missing columns default to `""`). -/
def parseRow (search_part : String) (headerTexts : List String) (cIdx : ColIdx)
    (row : Row) : Option Listing :=
  let cellTexts := dataCells row
  if cellTexts.length < headerTexts.length then none
  else
    let col := fun (key : String) =>
      match colLookup cIdx key with
      | some i => cellTexts.getD i ""
      | none => ""
    some
      { part_name := search_part
        year := yearOf (cellTexts.headD "")
        description := descriptionOf (col "description")
        grade := col "grade"
        stock_num := col "stock_num"
        price := priceOf (col "price")
        vendor := vendorOf (col "dealer")
        location := locationOf (col "dealer")
        phone := phoneOf (col "dealer")
        distance_miles := col "distance_miles" }

/-- The marker test on a table's first row (lines 167–171): the
concatenated lower-cased header texts contain `"yearpartmodel"` or
`"usprice"`. -/
def headerMarker (t : Table) : Bool :=
  let joined := strLower (String.join (headerCells (t.headD [])))
  strContains joined "yearpartmodel" || strContains joined "usprice"

/-- Whether the header maps column `key` (lines 173–181). -/
def hasCol (t : Table) (key : String) : Bool :=
  (colLookup (buildColIdx (headerCells (t.headD []))) key).isSome

/-- One iteration of the table loop: `none` means the table was skipped
(`continue`), `some rs` means it qualified and the loop breaks with rows
`rs`.  A table qualifies when it has at least two rows, its concatenated
lower-cased header contains a marker, and the header maps both a price and
a dealer-info column. -/
def parseTable (search_part : String) (t : Table) : Option (List Listing) :=
  if t.length < 2 then none
  else if headerMarker t then
    if hasCol t "price" && hasCol t "dealer" then
      let headerTexts := headerCells (t.headD [])
      some ((t.drop 1).filterMap (parseRow search_part headerTexts (buildColIdx headerTexts)))
    else none
  else none

/-- `_parse_results_table`: scan tables in document order, return the rows
of the first qualifying table, `[]` if none qualifies. -/
def _parse_results_table (tables : List Table) (search_part : String) : List Listing :=
  match tables with
  | [] => []
  | t :: ts =>
      match parseTable search_part t with
      | some rs => rs
      | none => _parse_results_table ts search_part

/-! ## Forms, pages and the interchange step -/

/-- An `<input>` element as the code reads it: `inp.get('name', d)` and
`inp.get('value', d)` return the attribute or the default. -/
structure FormInput where
  name : Option String
  value : Option String
deriving DecidableEq, Repr

/-- A `<form>`: its `type=hidden` inputs in document order. -/
structure Form where
  hiddenInputs : List FormInput
deriving DecidableEq, Repr

/-- A parsed response page, carrying the slices of the soup the scraper
reads: full text (`get_text()`), the `type=radio` inputs, the first form,
and all tables. -/
structure Page where
  text : String
  radios : List FormInput
  form : Option Form
  tables : List Table
deriving DecidableEq, Repr

/-- A submission payload, modelling a Python dict: insertion-ordered keys,
assignment replaces in place. -/
abbrev Dict := List (String × String)

/-- Python dict assignment `d[k] = v`. -/
def dictInsert (d : Dict) (k v : String) : Dict :=
  if d.any (fun p => p.1 == k) then d.map (fun p => if p.1 == k then (p.1, v) else p)
  else d ++ [(k, v)]

/-- Python dict lookup. -/
def dictGet (d : Dict) (k : String) : Option String :=
  (d.find? (fun p => p.1 == k)).map (fun p => p.2)

/-- Python `d.update(entries)`. -/
def dictUpdate (d : Dict) (entries : List (String × String)) : Dict :=
  entries.foldl (fun acc p => dictInsert acc p.1 p.2) d

/-- The radio loop of `_handle_interchange` (lines 126–131): the first
radio whose value (default `""`) is non-empty and not `"None"`, together
with its field name (default `"userInterchange"`). -/
def firstQualifyingRadio : List FormInput → Option (String × String)
  | [] => none
  | r :: rs =>
      let val := r.value.getD ""
      let nm := r.name.getD "userInterchange"
      if val ≠ "" ∧ val ≠ "None" then some (nm, val) else firstQualifyingRadio rs

/-- The hidden-field loop (lines 120–123): `data[name] = value` for every
hidden input with a non-empty name. -/
def applyHidden (d : Dict) : List FormInput → Dict
  | [] => d
  | i :: rest =>
      let nm := i.name.getD ""
      let d2 := if nm ≠ "" then dictInsert d nm (i.value.getD "") else d
      applyHidden d2 rest

/-- The payload `_handle_interchange` POSTs, or `none` when it returns the
page unchanged (no radios, or no form). -/
def _handle_interchange_data (original_data : Dict) (pg : Page) : Option Dict :=
  if pg.radios = [] then none
  else
    match pg.form with
    | none => none
    | some form =>
        let d := applyHidden original_data form.hiddenInputs
        let d2 :=
          match firstQualifyingRadio pg.radios with
          | some nv => dictInsert d nv.1 nv.2
          | none => d
        some d2

/-- `_handle_interchange`: `postResp` stands for one `session.post` to the
search endpoint, returning the parsed response. -/
def _handle_interchange (postResp : Dict → Page) (pg : Page) (original_data : Dict) : Page :=
  match _handle_interchange_data original_data pg with
  | none => pg
  | some d => postResp d

/-! ## Search entry points -/

/-- The submission payload of lines 289–297: the explicit search fields
updated with the bootstrap's hidden fields. -/
def buildSearchData (year model_value part_name zip_code : String)
    (hidden_fields : Dict) : Dict :=
  dictUpdate
    [("userDate", year), ("userModel", model_value), ("userPart", part_name),
     ("userLocation", "All States"), ("userPreference", "zip"), ("userZip", zip_code)]
    hidden_fields

/-- `search_single_part` from the initial POST on: `initResp = none` models
a caught transport failure (timeout or `raise_for_status`), which is logged
as a warning and yields the empty result; an `INVALID` marker in the body
yields the empty result before interchange handling or table extraction;
otherwise the optional interchange round-trip runs and the results table is
summarized. -/
def search_single_part (part_name : String) (initResp : Option Page)
    (postResp : Dict → Page) (data : Dict) : Summary :=
  match initResp with
  | none => emptySummary part_name
  | some pg =>
      if strContains pg.text "INVALID" then emptySummary part_name
      else
        let pg2 := _handle_interchange postResp pg data
        summarizeListings part_name (_parse_results_table pg2.tables part_name)

/-- One iteration of the `search_parts` loop body for a part: a caught
transport failure (`none`) or an `INVALID` body contributes no listings
(`continue`); otherwise the parsed listings of the results page. -/
def search_parts_one (part_name : String) (resp : Option Page)
    (postResp : Dict → Page) (data : Dict) : List Listing :=
  match resp with
  | none => []
  | some pg =>
      if strContains pg.text "INVALID" then []
      else _parse_results_table (_handle_interchange postResp pg data).tables part_name

/-- `search_parts`: the sequential batch loop, `all_results.extend` made
explicit as concatenation.  `resp` gives each part's initial response,
`dataFor` its submission payload. -/
def search_parts (parts : List String) (resp : String → Option Page)
    (postResp : Dict → Page) (dataFor : String → Dict) : List Listing :=
  match parts with
  | [] => []
  | p :: rest =>
      search_parts_one p (resp p) postResp (dataFor p) ++
        search_parts rest resp postResp dataFor

/-! ## Search-term normalization -/

/-- The static make alias table. -/
def _MAKE_ALIASES : List (String × String) := [("Mercedes-Benz", "Mercedes")]

/-- `_MAKE_ALIASES.get(make, make)`. -/
def aliasGet (make : String) : String :=
  ((_MAKE_ALIASES.find? (fun p => p.1 == make)).map (fun p => p.2)).getD make

/-- Mercedes models that do not follow the `"{pfx} Class"` pattern. -/
def _MERCEDES_MODEL_OVERRIDES : List (String × String) :=
  [("ML", "ML Series"), ("CLK", "CLK"), ("CLS", "CLS"), ("SLK", "SLK"),
   ("SLR", "SLR"), ("SLS", "SLS"), ("AMG GT", "AMG GT"), ("Metris", "Metris")]

/-- `_MERCEDES_MODEL_OVERRIDES.get(pfx)`. -/
def overrideGet (pfx : String) : Option String :=
  (_MERCEDES_MODEL_OVERRIDES.find? (fun p => p.1 == pfx)).map (fun p => p.2)

/-- `re.match(r'^([A-Za-z]+(?:\s+[A-Za-z]+)?)', model)` followed by
`.strip()`: the leading alphabetic token, extended by one whitespace-joined
alphabetic token when present. -/
def leadingModelToken (model : String) : Option String :=
  let cs := model.data
  let t1 := cs.takeWhile Char.isAlpha
  if t1 = [] then none
  else
    let r1 := cs.dropWhile Char.isAlpha
    let ws := r1.takeWhile Char.isWhitespace
    let t2 := (r1.dropWhile Char.isWhitespace).takeWhile Char.isAlpha
    if ws ≠ [] ∧ t2 ≠ [] then some (strTrim (String.mk (t1 ++ ws ++ t2)))
    else some (strTrim (String.mk t1))

/-- `_normalize_for_carpart`: alias the make, and rewrite Mercedes-Benz
models via the override table or the `" Class"` suffix convention. -/
def _normalize_for_carpart (make model : String) : String :=
  let norm_make := aliasGet make
  if make = "Mercedes-Benz" then
    match leadingModelToken model with
    | some pfx =>
        let suffix := (overrideGet pfx).getD (pfx ++ " Class")
        norm_make ++ " " ++ suffix
    | none => norm_make ++ " " ++ model
  else norm_make ++ " " ++ model

/-! ## Helper lemmas -/

/-- A left `min` fold is the seed or one of the list elements. -/
theorem foldlMin_mem (t : List ℚ) : ∀ a : ℚ, t.foldl min a = a ∨ t.foldl min a ∈ t := by
  induction t with
  | nil => intro a; left; rfl
  | cons b t ih =>
      intro a
      simp only [List.foldl_cons]
      rcases ih (min a b) with h | h
      · rw [h]
        rcases min_choice a b with h2 | h2
        · left; exact h2
        · right; rw [h2]; exact List.mem_cons_self b t
      · right; exact List.mem_cons_of_mem b h

/-- A left `min` fold is below the seed and every list element. -/
theorem foldlMin_le (t : List ℚ) :
    ∀ a : ℚ, t.foldl min a ≤ a ∧ ∀ r ∈ t, t.foldl min a ≤ r := by
  induction t with
  | nil => intro a; exact ⟨le_refl a, by simp⟩
  | cons b t ih =>
      intro a
      simp only [List.foldl_cons]
      have h := ih (min a b)
      refine ⟨le_trans h.1 (min_le_left a b), ?_⟩
      intro r hr
      rcases List.mem_cons.mp hr with h1 | h1
      · rw [h1]; exact le_trans h.1 (min_le_right a b)
      · exact h.2 r h1

/-- Key membership in the deduplicated output: exactly the keys of the
input not already in `seen`. -/
theorem dedupAux_keys_mem (l : List Listing) :
    ∀ (seen : List (String × String)) (k : String × String),
      k ∈ (dedupAux seen l).map dedupKey ↔ k ∈ l.map dedupKey ∧ k ∉ seen := by
  induction l with
  | nil => intro seen k; simp [dedupAux]
  | cons x xs ih =>
      intro seen k
      by_cases hx : dedupKey x ∈ seen <;>
        by_cases hk : k = dedupKey x <;>
          simp [dedupAux, hx, ih, hk]

/-- The deduplicated output has pairwise distinct keys. -/
theorem dedupAux_keys_nodup (l : List Listing) :
    ∀ seen : List (String × String), ((dedupAux seen l).map dedupKey).Nodup := by
  induction l with
  | nil => intro seen; simp [dedupAux]
  | cons x xs ih =>
      intro seen
      by_cases hx : dedupKey x ∈ seen
      · simpa [dedupAux, hx] using ih seen
      · simp only [dedupAux, if_neg hx, List.map_cons, List.nodup_cons]
        refine ⟨fun hmem => ?_, ih _⟩
        exact ((dedupAux_keys_mem xs _ _).mp hmem).2 (List.mem_cons_self _ _)

/-- Deduplication only drops elements: the output is a sublist of the
input, so order is preserved. -/
theorem dedupAux_sublist (l : List Listing) :
    ∀ seen : List (String × String), (dedupAux seen l).Sublist l := by
  induction l with
  | nil => intro seen; simp [dedupAux]
  | cons x xs ih =>
      intro seen
      by_cases hx : dedupKey x ∈ seen
      · simp only [dedupAux, if_pos hx]
        exact (ih seen).cons x
      · simp only [dedupAux, if_neg hx]
        exact (ih _).cons₂ x

/-- On key-nodup input disjoint from `seen`, deduplication is the
identity. -/
theorem dedupAux_eq_self (l : List Listing) :
    ∀ seen : List (String × String), (l.map dedupKey).Nodup →
      (∀ k ∈ l.map dedupKey, k ∉ seen) → dedupAux seen l = l := by
  induction l with
  | nil => intro seen _ _; rfl
  | cons x xs ih =>
      intro seen h1 h2
      have hx : dedupKey x ∉ seen := h2 _ (by simp)
      simp only [dedupAux, if_neg hx]
      congr 1
      apply ih
      · exact (List.nodup_cons.mp (by simpa using h1)).2
      · intro k hk hc
        rcases List.mem_cons.mp hc with h | h
        · exact (List.nodup_cons.mp (by simpa using h1)).1 (h ▸ hk)
        · exact h2 k (by simp [hk]) h

/-- The elements of the deduplicated output sharing a fixed key `k`: none
when `k` was already seen, else exactly the first input element with that
key. -/
theorem dedupAux_filter_key (k : String × String) (l : List Listing) :
    ∀ seen : List (String × String),
      (dedupAux seen l).filter (fun x => dedupKey x == k) =
        if k ∈ seen then [] else (l.find? (fun x => dedupKey x == k)).toList := by
  induction l with
  | nil => intro seen; by_cases h : k ∈ seen <;> simp [dedupAux, h]
  | cons x xs ih =>
      intro seen
      by_cases hx : dedupKey x ∈ seen <;> by_cases hk : dedupKey x = k
      · rw [show dedupAux seen (x :: xs) = dedupAux seen xs from by simp [dedupAux, hx]]
        rw [ih seen, if_pos (hk ▸ hx), if_pos (hk ▸ hx)]
      · rw [show dedupAux seen (x :: xs) = dedupAux seen xs from by simp [dedupAux, hx]]
        rw [ih seen, List.find?_cons_of_neg _ (by simpa using hk)]
      · have hks : k ∉ seen := hk ▸ hx
        rw [show dedupAux seen (x :: xs) = x :: dedupAux (dedupKey x :: seen) xs from by
          simp [dedupAux, hx]]
        rw [List.filter_cons_of_pos (by simpa using hk),
          ih (dedupKey x :: seen), if_pos (by simp [hk]),
          if_neg hks, List.find?_cons_of_pos _ (by simpa using hk)]
        rfl
      · rw [show dedupAux seen (x :: xs) = x :: dedupAux (dedupKey x :: seen) xs from by
          simp [dedupAux, hx]]
        rw [List.filter_cons_of_neg (by simpa using hk),
          ih (dedupKey x :: seen), List.find?_cons_of_neg _ (by simpa using hk)]
        by_cases hks : k ∈ seen
        · rw [if_pos (by simp [hks]), if_pos hks]
        · have hkc : k ∉ dedupKey x :: seen := by
            intro hc
            rcases List.mem_cons.mp hc with h | h
            · exact hk h.symm
            · exact hks h
          rw [if_neg hkc, if_neg hks]

/-! ## Concrete values used by witnesses and scenarios -/

/-- A `<th>` cell. -/
def th (s : String) : Cell := { isTh := true, text := s }

/-- A `<td>` cell. -/
def td (s : String) : Cell := { isTh := false, text := s }

/-- The 7-column scenario table from the spec: one header row and one data
row. -/
def demoTable : Table :=
  [[th "YearPartModel", th "Description", th "PartGrade", th "Stock#", th "USPrice",
    th "Dealer Info", th "Distmile"],
   [td "2017Fuel TankAudi A6", td "some text", td "A", td "S123", td "$125actual",
    td "ABC Auto USA-NY(Buffalo) - CDC 716-555-0100", td "12"]]

/-- The listing the scenario table parses to, for a given searched part. -/
def demoListing (part_name : String) : Listing :=
  { part_name := part_name, year := "2017", description := "some text", grade := "A",
    stock_num := "S123", price := "$125", vendor := "ABC Auto", location := "Buffalo, NY",
    phone := "716-555-0100", distance_miles := "12" }

/-- A listing with given vendor, stock number and price text; the other
fields are irrelevant to deduplication and statistics. -/
def mkListing (vendor stock_num price : String) : Listing :=
  { part_name := "Hood", year := "", description := "", grade := "", stock_num := stock_num,
    price := price, vendor := vendor, location := "", phone := "", distance_miles := "" }

/-- Three listings: two parseable prices, one `"Call"`. -/
def wListings : List Listing :=
  [mkListing "V1" "S1" "$100", mkListing "V2" "S2" "Call", mkListing "V3" "S3" "$50"]

/-- A page whose body carries the INVALID marker yet still contains a
well-formed results table — extraction must not run on it. -/
def invalidPage : Page :=
  { text := "SORRY - INVALID VIN", radios := [], form := none, tables := [demoTable] }

/-! ## Claims -/

/-- C1: for every list of parsed listings, `search_single_part`'s
`avg_price` is `none` iff no listing of the deduplicated set has a
parseable numeric price, and otherwise it is the arithmetic mean of exactly
the parseable prices; `low_price` is `none` under the same condition and
otherwise is the minimum of the parseable prices.  The first conjunct ties
the statistics to `search_single_part` itself on any non-INVALID response;
prices are modelled as rationals, and parseability is `extractPriceNum`,
the embedding of the code's `$`-stripping, digit/comma/dot-run extraction
and thousands-separator removal. -/
theorem C1_price_stats (part_name : String) (listings : List Listing) :
    (∀ (pg : Page) (postResp : Dict → Page) (data : Dict),
        strContains pg.text "INVALID" = false →
        search_single_part part_name (some pg) postResp data =
          summarizeListings part_name
            (_parse_results_table (_handle_interchange postResp pg data).tables part_name)) ∧
    ((summarizeListings part_name listings).avg_price = none ↔
        extractPrices (dedupListings listings) = []) ∧
    ((summarizeListings part_name listings).low_price = none ↔
        extractPrices (dedupListings listings) = []) ∧
    (extractPrices (dedupListings listings) ≠ [] →
        (summarizeListings part_name listings).avg_price =
          some ((extractPrices (dedupListings listings)).sum /
            ((extractPrices (dedupListings listings)).length : ℚ))) ∧
    (∀ q : ℚ, (summarizeListings part_name listings).low_price = some q →
        q ∈ extractPrices (dedupListings listings) ∧
          ∀ r ∈ extractPrices (dedupListings listings), q ≤ r) := by
  refine ⟨?_, ?_, ?_, ?_, ?_⟩
  · intro pg postResp data h
    simp [search_single_part, h]
  · cases hps : extractPrices (dedupListings listings) <;>
      simp [summarizeListings, hps]
  · cases hps : extractPrices (dedupListings listings) <;>
      simp [summarizeListings, hps, listMin]
  · intro h
    cases hps : extractPrices (dedupListings listings) with
    | nil => exact absurd hps h
    | cons p t => simp [summarizeListings, hps]
  · intro q hq
    cases hps : extractPrices (dedupListings listings) with
    | nil => simp [summarizeListings, hps, listMin] at hq
    | cons p t =>
        have hq2 : t.foldl min p = q := by
          simpa [summarizeListings, hps, listMin] using hq
        constructor
        · rcases foldlMin_mem t p with h | h
          · rw [← hq2, h]; exact List.mem_cons_self p t
          · rw [← hq2]; exact List.mem_cons_of_mem p h
        · intro r hr
          rcases List.mem_cons.mp hr with h | h
          · rw [← hq2, h]; exact (foldlMin_le t p).1
          · rw [← hq2]; exact (foldlMin_le t p).2 r h

/-- Witness for C1 at a concrete listing list with prices
`["$100", "Call", "$50"]`. -/
theorem C1_price_stats_witness :
    extractPrices (dedupListings wListings) ≠ [] ∧
    (summarizeListings "Hood" wListings).avg_price =
      some ((extractPrices (dedupListings wListings)).sum /
        ((extractPrices (dedupListings wListings)).length : ℚ)) :=
  ⟨by decide, (C1_price_stats "Hood" wListings).2.2.2.1 (by decide)⟩

/-- C2: `listing_count` equals the number of distinct
`(vendor, stock_number)` pairs of the input; deduplication keeps a sublist
of the input (first occurrences, original order); and two listings sharing
the pair — whatever their price texts — are kept once. -/
theorem C2_listing_count (part_name : String) (listings : List Listing) :
    (summarizeListings part_name listings).listing_count =
      ((listings.map dedupKey).toFinset).card ∧
    (dedupListings listings).Sublist listings ∧
    (∀ x y : Listing, dedupKey x = dedupKey y → dedupListings [x, y] = [x]) := by
  refine ⟨?_, dedupAux_sublist listings [], ?_⟩
  · have h1 : ((dedupListings listings).map dedupKey).Nodup := dedupAux_keys_nodup listings []
    have h2 : ((dedupListings listings).map dedupKey).toFinset =
        (listings.map dedupKey).toFinset := by
      apply Finset.ext
      intro k
      simp only [List.mem_toFinset]
      rw [show dedupListings listings = dedupAux [] listings from rfl, dedupAux_keys_mem]
      simp
    calc (summarizeListings part_name listings).listing_count
        = (dedupListings listings).length := rfl
      _ = ((dedupListings listings).map dedupKey).length := (List.length_map _ _).symm
      _ = ((dedupListings listings).map dedupKey).toFinset.card :=
          (List.toFinset_card_of_nodup h1).symm
      _ = (listings.map dedupKey).toFinset.card := by rw [h2]
  · intro x y hxy
    simp [dedupListings, dedupAux, hxy]

/-- Witness for C2: two listings with the same `(vendor, stock_number)`
but different price text collapse to the first. -/
theorem C2_listing_count_witness :
    dedupListings [mkListing "V1" "S1" "$100", mkListing "V1" "S1" "$999"] =
      [mkListing "V1" "S1" "$100"] :=
  (C2_listing_count "Hood" []).2.2 (mkListing "V1" "S1" "$100") (mkListing "V1" "S1" "$999") rfl

/-- C9: deduplication by `(vendor, stock_number)` keeping first
occurrences is idempotent. -/
theorem C9_dedup_idempotent (listings : List Listing) :
    dedupListings (dedupListings listings) = dedupListings listings :=
  dedupAux_eq_self (dedupListings listings) [] (dedupAux_keys_nodup listings [])
    (fun k _ => List.not_mem_nil k)

/-- C10: an empty dealer-info cell makes the vendor fallback empty (and an
empty stock column makes the stock number empty), so such listings share
the key `("", "")`; among any listing list, the deduplicated set keeps
exactly the first listing with that key, counting the rest out of
`listing_count`. -/
theorem C10_empty_key_collision :
    vendorOf "" = "" ∧
    ∀ listings : List Listing,
      (dedupListings listings).filter (fun x => dedupKey x == ("", "")) =
        (listings.find? (fun x => dedupKey x == ("", ""))).toList := by
  refine ⟨rfl, ?_⟩
  intro listings
  simpa using dedupAux_filter_key ("", "") listings []

/-- C3: table extraction scans tables in document order; a table is used
only if its header carries the `"yearpartmodel"`/`"usprice"` marker; a
table whose header lacks both the price and the dealer-info column is
rejected and scanning continues; and the rows of the first qualifying
table are returned, with later tables ignored. -/
theorem C3_table_scan (part_name : String) :
    (∀ t : Table, parseTable part_name t ≠ none → headerMarker t = true) ∧
    (∀ t : Table, hasCol t "price" = false → hasCol t "dealer" = false →
        parseTable part_name t = none) ∧
    (∀ (t : Table) (ts : List Table), parseTable part_name t = none →
        _parse_results_table (t :: ts) part_name = _parse_results_table ts part_name) ∧
    (∀ (t : Table) (ts : List Table) (rs : List Listing), parseTable part_name t = some rs →
        _parse_results_table (t :: ts) part_name = rs) := by
  refine ⟨?_, ?_, ?_, ?_⟩
  · intro t h
    by_cases h1 : t.length < 2
    · simp [parseTable, h1] at h
    · by_cases h2 : headerMarker t = true
      · exact h2
      · simp [parseTable, h1, h2] at h
  · intro t hp hd
    by_cases h1 : t.length < 2
    · simp [parseTable, h1]
    · simp [parseTable, h1, hp]
  · intro t ts h
    simp only [_parse_results_table]
    rw [h]
  · intro t ts rs h
    simp only [_parse_results_table]
    rw [h]

/-- Witness for C3: the scenario table qualifies, and its parsed rows are
returned from a one-table document. -/
theorem C3_table_scan_witness :
    _parse_results_table [demoTable] "Hood" = [demoListing "Hood"] :=
  (C3_table_scan "Hood").2.2.2 demoTable [] [demoListing "Hood"] rfl

/-- C4: on the spec's 7-column scenario table, `_parse_results_table`
yields exactly one listing with the stated field values. -/
theorem C4_scenario_row :
    _parse_results_table [demoTable] "Fuel Tank" =
      [{ part_name := "Fuel Tank", year := "2017", description := "some text", grade := "A",
         stock_num := "S123", price := "$125", vendor := "ABC Auto", location := "Buffalo, NY",
         phone := "716-555-0100", distance_miles := "12" }] := by
  rfl

/-! The interchange scenario: radio values `["None", "12345"]`, an
intermediate form with one hidden field, and the original payload of a
2017 Audi A6 hood search. -/

/-- The interchange-selection page of the C5 scenario. -/
def interPage : Page :=
  { text := "interchange selection"
  , radios := [{ name := some "userInterchange", value := some "None" },
               { name := some "userInterchange", value := some "12345" }]
  , form := some { hiddenInputs := [{ name := some "userSide", value := some "B" }] }
  , tables := [] }

/-- The original submission payload of the C5 scenario. -/
def interOrig : Dict := buildSearchData "2017" "Audi A6" "Hood" "14225" []

/-- The payload the interchange step POSTs in the C5 scenario: the
original payload, the intermediate page's hidden field, and the selected
radio value. -/
def interPayload : Dict :=
  [("userDate", "2017"), ("userModel", "Audi A6"), ("userPart", "Hood"),
   ("userLocation", "All States"), ("userPreference", "zip"), ("userZip", "14225"),
   ("userSide", "B"), ("userInterchange", "12345")]

/-- C5: on an interchange page with radio values `["None", "12345"]`, the
handler selects `"12345"` (never `"None"`), merges the selection and the
intermediate form's hidden fields into the original payload — carrying
`userDate` forward — and performs exactly one further POST, with that
payload, whatever the transport function is. -/
theorem C5_interchange_select :
    firstQualifyingRadio interPage.radios = some ("userInterchange", "12345") ∧
    (firstQualifyingRadio interPage.radios).map (fun nv => nv.2) ≠ some "None" ∧
    _handle_interchange_data interOrig interPage = some interPayload ∧
    dictGet interPayload "userInterchange" = some "12345" ∧
    dictGet interPayload "userDate" = some "2017" ∧
    dictGet interPayload "userSide" = some "B" ∧
    ∀ postResp : Dict → Page,
      _handle_interchange postResp interPage interOrig = postResp interPayload := by
  exact ⟨by decide, by decide, by decide, by decide, by decide, by decide,
    fun postResp => rfl⟩

/-- Witness for C5 (the statement is closed; this instantiates the
one-POST conjunct at a concrete transport function). -/
theorem C5_interchange_select_witness :
    _handle_interchange (fun _ => invalidPage) interPage interOrig =
      (fun (_ : Dict) => invalidPage) interPayload :=
  C5_interchange_select.2.2.2.2.2.2 (fun _ => invalidPage)

/-- C6: a response body containing the literal marker `"INVALID"` makes
`search_single_part` return the empty result immediately — for every
transport function and every table content of the page, so neither
interchange handling nor table extraction can influence the outcome — and
makes the part contribute zero listings to `search_parts`, whose loop
continues with the remaining parts. -/
theorem C6_invalid_marker (part_name : String) (pg : Page) (postResp : Dict → Page)
    (data : Dict) (h : strContains pg.text "INVALID" = true) :
    search_single_part part_name (some pg) postResp data = emptySummary part_name ∧
    search_parts_one part_name (some pg) postResp data = [] ∧
    ∀ (rest : List String) (resp : String → Option Page) (dataFor : String → Dict),
      resp part_name = some pg →
      search_parts (part_name :: rest) resp postResp dataFor =
        search_parts rest resp postResp dataFor := by
  refine ⟨by simp [search_single_part, h], by simp [search_parts_one, h], ?_⟩
  intro rest resp dataFor hresp
  simp [search_parts, hresp, search_parts_one, h]

/-- Witness for C6: a page that contains `"INVALID"` and also a
well-formed results table still yields the empty result. -/
theorem C6_invalid_marker_witness :
    search_single_part "Hood" (some invalidPage) (fun _ => invalidPage) [] =
      emptySummary "Hood" :=
  (C6_invalid_marker "Hood" invalidPage (fun _ => invalidPage) [] (by decide)).1

/-- C7: a caught transport failure on a part's initial submission
(modelled as `initResp = none`) yields the empty result for that part and
contributes zero listings, and the `search_parts` batch loop continues
with the remaining parts instead of aborting. -/
theorem C7_transport_failure (part_name : String) (postResp : Dict → Page) (data : Dict) :
    search_single_part part_name none postResp data = emptySummary part_name ∧
    search_parts_one part_name none postResp data = [] ∧
    ∀ (rest : List String) (resp : String → Option Page) (dataFor : String → Dict),
      resp part_name = none →
      search_parts (part_name :: rest) resp postResp dataFor =
        search_parts rest resp postResp dataFor := by
  refine ⟨rfl, rfl, ?_⟩
  intro rest resp dataFor hresp
  simp [search_parts, hresp, search_parts_one]

/-- Witness for C7: with every initial submission failing, the batch over
`["Hood", "Fender"]` reduces to the batch over `["Fender"]`. -/
theorem C7_transport_failure_witness :
    search_parts ["Hood", "Fender"] (fun _ => none) (fun _ => invalidPage) (fun _ => []) =
      search_parts ["Fender"] (fun _ => none) (fun _ => invalidPage) (fun _ => []) :=
  (C7_transport_failure "Hood" (fun _ => invalidPage) []).2.2 ["Fender"]
    (fun _ => none) (fun _ => []) rfl

/-- Counterexample to C8 as stated: the override-table entry for the
extracted Mercedes model token `"ML"` is `"ML Series"`, so the trim code
does *not* keep its own name — `_normalize_for_carpart "Mercedes-Benz"
"ML 350"` is `"Mercedes ML Series"`, not `"Mercedes ML"`. -/
theorem C8_normalize_counterexample :
    leadingModelToken "ML 350" = some "ML" ∧
    overrideGet "ML" = some "ML Series" ∧
    _normalize_for_carpart "Mercedes-Benz" "ML 350" = "Mercedes ML Series" ∧
    _normalize_for_carpart "Mercedes-Benz" "ML 350" ≠ "Mercedes ML" := by
  decide

/-- C8 (amended): normalization aliases the make; for Mercedes-Benz it
extracts the leading alphabetic token(s) of the model, and if that token
is in the override table the table's replacement string is used (most
entries keep the trim's own name, but `"ML"` maps to `"ML Series"`),
otherwise `" Class"` is appended; the output is the single string
`"<make> <model>"` and the function is deterministic. -/
theorem C8_normalize (make model : String) :
    (make ≠ "Mercedes-Benz" →
        _normalize_for_carpart make model = aliasGet make ++ " " ++ model) ∧
    (∀ pfx repl : String, make = "Mercedes-Benz" → leadingModelToken model = some pfx →
        overrideGet pfx = some repl →
        _normalize_for_carpart make model = "Mercedes" ++ " " ++ repl) ∧
    (∀ pfx : String, make = "Mercedes-Benz" → leadingModelToken model = some pfx →
        overrideGet pfx = none →
        _normalize_for_carpart make model = "Mercedes" ++ " " ++ (pfx ++ " Class")) ∧
    (∀ make2 model2 : String, make = make2 → model = model2 →
        _normalize_for_carpart make model = _normalize_for_carpart make2 model2) := by
  refine ⟨?_, ?_, ?_, ?_⟩
  · intro h
    simp [_normalize_for_carpart, h]
  · intro pfx repl hm hl ho
    subst hm
    simp [_normalize_for_carpart, hl, ho, aliasGet, _MAKE_ALIASES]
  · intro pfx hm hl ho
    subst hm
    simp [_normalize_for_carpart, hl, ho, aliasGet, _MAKE_ALIASES]
  · intro make2 model2 h1 h2
    rw [h1, h2]

/-- Witness for C8 at `("Mercedes-Benz", "GLE 450")`: token `"GLE"` is not
in the override table, so `" Class"` is appended. -/
theorem C8_normalize_witness :
    _normalize_for_carpart "Mercedes-Benz" "GLE 450" =
      "Mercedes" ++ " " ++ ("GLE" ++ " Class") :=
  (C8_normalize "Mercedes-Benz" "GLE 450").2.2.1 "GLE" rfl (by decide) (by decide)

end CarPart
